import Mathlib

/-!
Verification of the epicbox sandbox library (epicbox/sandboxes.py,
epicbox/utils.py, epicbox/config.py) against its specification.

The Python code is shallowly embedded: dicts become association lists,
bytes become lists of naturals, fallible code returns Except, and the
external container engine is a parameter (the communicator outcome and
the inspected container state are inputs to the embedded start).
-/

/-- Python exception kinds that the embedded code can raise. -/
inductive PyErr : Type
  | keyError (key : String)
  | valueError (msg : String)
  | typeError (msg : String)
  | dockerError (msg : String)
deriving DecidableEq, Repr

/-- Bytes objects are lists of byte values. -/
abbrev Bytes := List Nat

/-! ### Python dict primitives

A dict is an insertion-ordered association list.  Lookup returns the
first (unique) binding; assignment updates an existing binding in place
or appends a new one, exactly as Python dicts behave. -/

/-- Dict lookup d[k] returning an Option. -/
def dget {α : Type} : List (String × α) → String → Option α
  | [], _ => Option.none
  | (k, v) :: d, key => if k = key then Option.some v else dget d key

/-- Dict membership test, k in d. -/
def dcontains {α : Type} (d : List (String × α)) (k : String) : Bool :=
  (dget d k).isSome

/-- Dict assignment d[k] = v. -/
def dset {α : Type} : List (String × α) → String → α → List (String × α)
  | [], key, val => [(key, val)]
  | (k, v) :: d, key, val =>
      if k = key then (k, val) :: d else (k, v) :: dset d key val

/-- Dict subscript access d[k], raising KeyError when the key is absent. -/
def getitem {α : Type} (d : List (String × α)) (k : String) : Except PyErr α :=
  match dget d k with
  | Option.some v => Except.ok v
  | Option.none => Except.error (PyErr.keyError k)

theorem dget_dset_self {α : Type} (d : List (String × α)) (k : String) (v : α) :
    dget (dset d k v) k = Option.some v := by
  induction d with
  | nil => simp [dset, dget]
  | cons hd tl ih =>
      obtain ⟨k₀, v₀⟩ := hd
      by_cases h : k₀ = k
      · simp [dset, dget, h]
      · simp [dset, dget, h, ih]

theorem dget_dset_ne {α : Type} (d : List (String × α)) (k k' : String) (v : α)
    (h : k' ≠ k) : dget (dset d k v) k' = dget d k' := by
  induction d with
  | nil => simp [dset, dget, Ne.symm h]
  | cons hd tl ih =>
      obtain ⟨k₀, v₀⟩ := hd
      by_cases h₀ : k₀ = k
      · subst h₀
        simp [dset, dget, Ne.symm h]
      · simp [dset, dget, h₀, ih]

/-! ### Limits (epicbox/config.py, epicbox/utils.py)

Limit values are modelled as integers (the numeric case; the spec notes
None means unlimited, which no claim exercises). -/

/-- Limits dicts map limit names to integer values. -/
abbrev LimitsDict := List (String × Int)

/-- config.DEFAULT_LIMITS: cputime 1 s, realtime 5 s, memory 64 MB. -/
def DEFAULT_LIMITS : LimitsDict := [("cputime", 1), ("realtime", 5), ("memory", 64)]

/-- config.CPU_TO_REAL_TIME_FACTOR. -/
def CPU_TO_REAL_TIME_FACTOR : Int := 5

/-- One iteration of the defaults loop in utils.merge_limits_defaults:
if the limit name is not yet in the dict, insert the default value. -/
def mergeStep (acc : LimitsDict) (kv : String × Int) : LimitsDict :=
  if dcontains acc kv.1 then acc else dset acc kv.1 kv.2

/-- utils.merge_limits_defaults.  A falsy argument (None or the empty
dict) returns DEFAULT_LIMITS itself; otherwise missing defaults are
filled in and, when the caller did not supply realtime, it is derived
as cputime times CPU_TO_REAL_TIME_FACTOR.  After the defaults loop the
cputime key is always present, so the getD fallback is unreachable. -/
def merge_limits_defaults (limits : Option LimitsDict) : LimitsDict :=
  match limits with
  | Option.none => DEFAULT_LIMITS
  | Option.some l =>
      if l.isEmpty then DEFAULT_LIMITS
      else
        let is_realtime_specified := dcontains l "realtime"
        let merged := DEFAULT_LIMITS.foldl mergeStep l
        if is_realtime_specified then merged
        else
          dset merged "realtime"
            ((dget merged "cputime").getD 0 * CPU_TO_REAL_TIME_FACTOR)

theorem mergeStep_get_of_some (acc : LimitsDict) (kv : String × Int)
    (k : String) (w : Int) (h : dget acc k = Option.some w) :
    dget (mergeStep acc kv) k = Option.some w := by
  unfold mergeStep
  by_cases hc : dcontains acc kv.1
  · rw [if_pos hc]; exact h
  · rw [if_neg hc]
    by_cases hk : k = kv.1
    · subst hk
      simp [dcontains, h] at hc
    · rw [dget_dset_ne acc kv.1 k kv.2 hk]; exact h

theorem mergeStep_get_of_none_ne (acc : LimitsDict) (kv : String × Int)
    (k : String) (hk : k ≠ kv.1) (h : dget acc k = Option.none) :
    dget (mergeStep acc kv) k = Option.none := by
  unfold mergeStep
  by_cases hc : dcontains acc kv.1
  · rw [if_pos hc]; exact h
  · rw [if_neg hc]
    rw [dget_dset_ne acc kv.1 k kv.2 hk]; exact h

theorem mergeStep_contains_key (acc : LimitsDict) (kv : String × Int) :
    dcontains (mergeStep acc kv) kv.1 = true := by
  unfold mergeStep
  by_cases hc : dcontains acc kv.1
  · rw [if_pos hc]; exact hc
  · rw [if_neg hc]; simp [dcontains, dget_dset_self]

theorem mergeStep_contains_of_contains (acc : LimitsDict) (kv : String × Int)
    (k : String) (h : dcontains acc k = true) :
    dcontains (mergeStep acc kv) k = true := by
  rw [dcontains, Option.isSome_iff_exists] at h
  obtain ⟨w, hw⟩ := h
  rw [dcontains, mergeStep_get_of_some acc kv k w hw]
  rfl

theorem foldl_defaults_get_of_some (l : LimitsDict) (k : String) (w : Int)
    (h : dget l k = Option.some w) :
    dget (DEFAULT_LIMITS.foldl mergeStep l) k = Option.some w := by
  simp only [DEFAULT_LIMITS, List.foldl]
  exact mergeStep_get_of_some _ _ _ _
    (mergeStep_get_of_some _ _ _ _ (mergeStep_get_of_some _ _ _ _ h))

theorem foldl_defaults_contains_cputime (l : LimitsDict) :
    dcontains (DEFAULT_LIMITS.foldl mergeStep l) "cputime" = true := by
  simp only [DEFAULT_LIMITS, List.foldl]
  exact mergeStep_contains_of_contains _ _ _
    (mergeStep_contains_of_contains _ _ _ (mergeStep_contains_key l ("cputime", 1)))

theorem foldl_defaults_contains_memory (l : LimitsDict) :
    dcontains (DEFAULT_LIMITS.foldl mergeStep l) "memory" = true := by
  simp only [DEFAULT_LIMITS, List.foldl]
  exact mergeStep_contains_key _ ("memory", 64)

theorem foldl_defaults_get_processes_none (l : LimitsDict)
    (h : dget l "processes" = Option.none) :
    dget (DEFAULT_LIMITS.foldl mergeStep l) "processes" = Option.none := by
  simp only [DEFAULT_LIMITS, List.foldl]
  exact mergeStep_get_of_none_ne _ _ _ (by decide)
    (mergeStep_get_of_none_ne _ _ _ (by decide)
      (mergeStep_get_of_none_ne _ _ _ (by decide) h))

/-- Claim C5.  For limits with cputime present and realtime absent, the
merged realtime equals cputime times five; and when the caller supplied
realtime themselves, the merged realtime is exactly the supplied value
(no auto-derivation). -/
theorem merge_limits_realtime_derivation (L : LimitsDict) :
    (∀ c : Int, dget L "cputime" = Option.some c →
      dget L "realtime" = Option.none →
      dget (merge_limits_defaults (Option.some L)) "realtime" =
        Option.some (c * 5)) ∧
    (∀ r : Int, dget L "realtime" = Option.some r →
      dget (merge_limits_defaults (Option.some L)) "realtime" =
        Option.some r) := by
  constructor
  · intro c hc hr
    have hne : L.isEmpty = false := by
      cases L with
      | nil => simp [dget] at hc
      | cons hd tl => rfl
    have hspec : dcontains L "realtime" = false := by
      rw [dcontains, hr]; rfl
    simp only [merge_limits_defaults, hne, Bool.false_eq_true, if_false, hspec]
    rw [foldl_defaults_get_of_some L "cputime" c hc]
    rw [dget_dset_self]
    rfl
  · intro r hr
    have hne : L.isEmpty = false := by
      cases L with
      | nil => simp [dget] at hr
      | cons hd tl => rfl
    have hspec : dcontains L "realtime" = true := by
      rw [dcontains, hr]; rfl
    simp only [merge_limits_defaults, hne, Bool.false_eq_true, if_false, hspec,
      if_true]
    exact foldl_defaults_get_of_some L "realtime" r hr

/-- Witness for C5 at the concrete limits dict with cputime 3 only. -/
theorem merge_limits_realtime_derivation_witness :
    dget (merge_limits_defaults (Option.some [("cputime", 3)])) "realtime" =
      Option.some 15 :=
  (merge_limits_realtime_derivation [("cputime", 3)]).1 3 (by decide) (by decide)

/-! ### Container creation argument assembly (epicbox/sandboxes.py) -/

/-- docker.types.Ulimit record as built by utils.create_ulimits. -/
structure Ulimit where
  name : String
  soft : Int
  hard : Int
deriving DecidableEq, Repr

/-- utils.create_ulimits.  Reads cputime by subscript (so a missing key
raises KeyError), emits a cpu ulimit when it is truthy, and an fsize
ulimit when file_size is present; returns None for an empty list. -/
def create_ulimits (limits : LimitsDict) : Except PyErr (Option (List Ulimit)) :=
  match getitem limits "cputime" with
  | Except.error e => Except.error e
  | Except.ok cputime =>
      let ulimits : List Ulimit :=
        if cputime ≠ 0 then [{ name := "cpu", soft := cputime, hard := cputime }]
        else []
      let ulimits :=
        if dcontains limits "file_size" then
          ulimits ++ [{ name := "fsize", soft := (dget limits "file_size").getD 0,
                        hard := (dget limits "file_size").getD 0 }]
        else ulimits
      Except.ok (if ulimits.isEmpty then Option.none else Option.some ulimits)

/-- The limit-derived keyword arguments of the containers.create call in
sandboxes.py _create_sandbox_container. -/
structure CreateArgs where
  mem_limit : String
  memswap_limit : String
  ulimits : Option (List Ulimit)
  pids_limit : Int
deriving DecidableEq, Repr

/-- The limit-dependent part of _create_sandbox_container, in source
evaluation order: mem_limit from the memory key, then create_ulimits,
then the pids_limit keyword argument evaluates limits["processes"] by
subscript.  Any raised KeyError is not caught: the except clause around
the engine call handles only engine errors (wrapped as DockerError). -/
def create_sandbox_container_args (limits : LimitsDict) : Except PyErr CreateArgs :=
  match getitem limits "memory" with
  | Except.error e => Except.error e
  | Except.ok memory =>
      match create_ulimits limits with
      | Except.error e => Except.error e
      | Except.ok ulimits =>
          match getitem limits "processes" with
          | Except.error e => Except.error e
          | Except.ok processes =>
              Except.ok { mem_limit := toString memory ++ "m",
                          memswap_limit := toString memory ++ "m",
                          ulimits := ulimits,
                          pids_limit := processes }

/-- Claim C4.  When the caller omits the processes key (including a None
limits argument), the merged limits still lack processes, and the
argument assembly of _create_sandbox_container fails with exactly
KeyError "processes" (a PyErr.keyError, not a valueError and not a
dockerError). -/
theorem create_missing_processes_keyerror (limits : Option LimitsDict)
    (h : ∀ l, limits = Option.some l → dget l "processes" = Option.none) :
    dget (merge_limits_defaults limits) "processes" = Option.none ∧
    create_sandbox_container_args (merge_limits_defaults limits) =
      Except.error (PyErr.keyError "processes") := by
  match limits with
  | Option.none =>
      constructor
      · decide
      · rfl
  | Option.some l =>
      have hproc : dget l "processes" = Option.none := h l rfl
      by_cases hne : l.isEmpty
      · have hmerge : merge_limits_defaults (Option.some l) = DEFAULT_LIMITS := by
          simp [merge_limits_defaults, hne]
        rw [hmerge]
        constructor
        · decide
        · rfl
      · have hne' : l.isEmpty = false := by
          simpa using hne
        have hproc₀ : dget (DEFAULT_LIMITS.foldl mergeStep l) "processes" =
            Option.none := foldl_defaults_get_processes_none l hproc
        have hcpu : dcontains (DEFAULT_LIMITS.foldl mergeStep l) "cputime" = true :=
          foldl_defaults_contains_cputime l
        have hmem : dcontains (DEFAULT_LIMITS.foldl mergeStep l) "memory" = true :=
          foldl_defaults_contains_memory l
        rw [dcontains, Option.isSome_iff_exists] at hcpu hmem
        obtain ⟨c, hc⟩ := hcpu
        obtain ⟨m, hm⟩ := hmem
        -- the merged dict, with and without the derived realtime entry
        have key : ∀ M : LimitsDict, dget M "processes" = Option.none →
            (∃ c, dget M "cputime" = Option.some c) →
            (∃ m, dget M "memory" = Option.some m) →
            create_sandbox_container_args M =
              Except.error (PyErr.keyError "processes") := by
          intro M hP ⟨c', hc'⟩ ⟨m', hm'⟩
          unfold create_sandbox_container_args create_ulimits getitem
          rw [hP, hc', hm']
        by_cases hrt : dcontains l "realtime"
        · have hmerge : merge_limits_defaults (Option.some l) =
              DEFAULT_LIMITS.foldl mergeStep l := by
            simp [merge_limits_defaults, hne', hrt]
          rw [hmerge]
          exact ⟨hproc₀, key _ hproc₀ ⟨c, hc⟩ ⟨m, hm⟩⟩
        · have hrt' : dcontains l "realtime" = false := by simpa using hrt
          have hmerge : merge_limits_defaults (Option.some l) =
              dset (DEFAULT_LIMITS.foldl mergeStep l) "realtime"
                ((dget (DEFAULT_LIMITS.foldl mergeStep l) "cputime").getD 0 *
                  CPU_TO_REAL_TIME_FACTOR) := by
            simp [merge_limits_defaults, hne', hrt']
          rw [hmerge]
          have hP : dget (dset (DEFAULT_LIMITS.foldl mergeStep l) "realtime"
              ((dget (DEFAULT_LIMITS.foldl mergeStep l) "cputime").getD 0 *
                CPU_TO_REAL_TIME_FACTOR)) "processes" = Option.none := by
            rw [dget_dset_ne _ _ _ _ (by decide)]
            exact hproc₀
          refine ⟨hP, key _ hP ⟨c, ?_⟩ ⟨m, ?_⟩⟩
          · rw [dget_dset_ne _ _ _ _ (by decide)]; exact hc
          · rw [dget_dset_ne _ _ _ _ (by decide)]; exact hm

/-- Witness for C4 at limits = None. -/
theorem create_missing_processes_keyerror_witness :
    dget (merge_limits_defaults Option.none) "processes" = Option.none ∧
    create_sandbox_container_args (merge_limits_defaults Option.none) =
      Except.error (PyErr.keyError "processes") :=
  create_missing_processes_keyerror Option.none (fun _ hl => by cases hl)

/-! ### The start operation (epicbox/sandboxes.py lines 145..192)

The container engine is external: the outcome of
utils.docker_communicate and the post-mortem state computed by
utils.inspect_exited_container_state are inputs to the embedded start. -/

/-- Python values that can be passed as the stdin argument of start. -/
inductive PyVal : Type
  | pynone
  | bytes (b : Bytes)
  | str (s : String)
  | int (n : Int)
deriving DecidableEq, Repr

/-- Python truthiness of a PyVal. -/
def pyTruthy : PyVal → Bool
  | PyVal.pynone => false
  | PyVal.bytes b => !b.isEmpty
  | PyVal.str s => !(s == "")
  | PyVal.int n => n != 0

/-- isinstance(v, bytes). -/
def pyIsBytes : PyVal → Bool
  | PyVal.bytes _ => true
  | _ => false

/-- isinstance(v, str). -/
def pyIsStr : PyVal → Bool
  | PyVal.str _ => true
  | _ => false

/-- s.encode(), the utf-8 bytes of a string. -/
def utf8Encode (s : String) : Bytes :=
  s.toUTF8.toList.map (fun b => b.toNat)

/-- The stdin coercion at the top of start: only a truthy stdin is
checked; a truthy value that is neither bytes nor str raises TypeError,
a truthy str is utf-8 encoded, everything else passes through. -/
def coerce_stdin (stdin : PyVal) : Except PyErr PyVal :=
  if pyTruthy stdin then
    if !(pyIsBytes stdin || pyIsStr stdin) then
      Except.error (PyErr.typeError "stdin must be bytes or str")
    else if pyIsStr stdin then
      match stdin with
      | PyVal.str s => Except.ok (PyVal.bytes (utf8Encode s))
      | other => Except.ok other
    else Except.ok stdin
  else Except.ok stdin

/-- utils.is_killed_by_sigkill_or_sigxcpu; on Linux signal.SIGKILL is 9
and signal.SIGXCPU is 24. -/
def is_killed_by_sigkill_or_sigxcpu (status : Int) : Bool :=
  [(9 : Int), 24].contains (status - 128)

/-- The outcome of utils.docker_communicate, as observed by start. -/
inductive CommOutcome : Type
  | ok (stdout stderr : Bytes)
  | timeoutError
  | dockerFailure (msg : String)
deriving DecidableEq, Repr

/-- The dict returned by utils.inspect_exited_container_state: ExitCode,
the clamped duration in seconds, and the OOMKilled flag. -/
structure InspectedState where
  exit_code : Int
  duration : Rat
  oom_killed : Bool
deriving DecidableEq, Repr

/-- The result dict returned by start (and hence by run). -/
structure RunResult where
  exit_code : Option Int
  stdout : Bytes
  stderr : Bytes
  duration : Option Rat
  timeout : Bool
  oom_killed : Bool
deriving DecidableEq, Repr

/-- sandboxes.start.  Coerce stdin, set up the result dict, then
branch on the communicator outcome: TimeoutError marks timeout and
returns without inspecting; engine failures are wrapped as DockerError;
otherwise the inspected state is folded in and the SIGKILL/SIGXCPU
heuristic may set timeout. -/
def start (stdin : PyVal) (comm : CommOutcome) (istate : InspectedState) :
    Except PyErr RunResult :=
  Except.bind (coerce_stdin stdin) (fun _ =>
    let result : RunResult :=
      { exit_code := Option.none, stdout := [], stderr := [],
        duration := Option.none, timeout := false, oom_killed := false }
    match comm with
    | CommOutcome.timeoutError =>
        Except.ok { result with timeout := true }
    | CommOutcome.dockerFailure msg =>
        Except.error (PyErr.dockerError msg)
    | CommOutcome.ok out err =>
        let result := { result with
          stdout := out, stderr := err,
          exit_code := Option.some istate.exit_code,
          duration := Option.some istate.duration,
          oom_killed := istate.oom_killed }
        if is_killed_by_sigkill_or_sigxcpu istate.exit_code && !istate.oom_killed
        then Except.ok { result with timeout := true }
        else Except.ok result)

/-- Claim C1.  A completed start (communicator returned normally) whose
inspected exit code is 128 plus SIGKILL or SIGXCPU, with OOMKilled
false, reports timeout true. -/
theorem start_sigkill_sigxcpu_timeout (stdin : PyVal) (out err : Bytes)
    (istate : InspectedState) (r : RunResult)
    (hok : start stdin (CommOutcome.ok out err) istate = Except.ok r)
    (hsig : istate.exit_code - 128 = 9 ∨ istate.exit_code - 128 = 24)
    (hoom : istate.oom_killed = false) :
    r.timeout = true := by
  unfold start at hok
  cases hcs : coerce_stdin stdin with
  | error e => rw [hcs] at hok; cases hok
  | ok v =>
      rw [hcs] at hok
      simp only [Except.bind] at hok
      have hk : is_killed_by_sigkill_or_sigxcpu istate.exit_code = true := by
        unfold is_killed_by_sigkill_or_sigxcpu
        rcases hsig with h | h <;> rw [h] <;> decide
      rw [hk, hoom] at hok
      rw [show (true && !false) = true from rfl] at hok
      simp only [if_true] at hok
      cases hok
      rfl

/-- Witness for C1: exit code 137 (128 + SIGKILL) and OOMKilled false. -/
theorem start_sigkill_sigxcpu_timeout_witness :
    start PyVal.pynone (CommOutcome.ok [] [])
        { exit_code := 137, duration := 1, oom_killed := false } =
      Except.ok { exit_code := Option.some 137, stdout := [], stderr := [],
                  duration := Option.some 1, timeout := true,
                  oom_killed := false } ∧
    RunResult.timeout
        { exit_code := Option.some 137, stdout := [], stderr := [],
          duration := Option.some 1, timeout := true,
          oom_killed := false } = true :=
  ⟨rfl,
   start_sigkill_sigxcpu_timeout PyVal.pynone [] []
     { exit_code := 137, duration := 1, oom_killed := false }
     { exit_code := Option.some 137, stdout := [], stderr := [],
       duration := Option.some 1, timeout := true, oom_killed := false }
     rfl (Or.inl (by decide)) rfl⟩

/-- Claim C2.  Every result returned by start with oom_killed true has
timeout false: the heuristic only fires when OOMKilled is false, the
TimeoutError branch leaves oom_killed false, and both flags start
false. -/
theorem start_oom_killed_not_timeout (stdin : PyVal) (comm : CommOutcome)
    (istate : InspectedState) (r : RunResult)
    (hok : start stdin comm istate = Except.ok r)
    (hoom : r.oom_killed = true) : r.timeout = false := by
  unfold start at hok
  cases hcs : coerce_stdin stdin with
  | error e => rw [hcs] at hok; cases hok
  | ok v =>
      rw [hcs] at hok
      simp only [Except.bind] at hok
      cases comm with
      | timeoutError =>
          cases hok
          simp at hoom
      | dockerFailure msg => cases hok
      | ok out err =>
          cases hb : is_killed_by_sigkill_or_sigxcpu istate.exit_code &&
              !istate.oom_killed with
          | true =>
              rw [hb] at hok
              cases hok
              have hoom' : istate.oom_killed = true := hoom
              rw [hoom'] at hb
              simp at hb
          | false =>
              rw [hb] at hok
              cases hok
              rfl

/-- Witness for C2: an OOM-killed run (exit code 137, OOMKilled true)
reports timeout false. -/
theorem start_oom_killed_not_timeout_witness :
    start PyVal.pynone (CommOutcome.ok [] [])
        { exit_code := 137, duration := 1, oom_killed := true } =
      Except.ok { exit_code := Option.some 137, stdout := [], stderr := [],
                  duration := Option.some 1, timeout := false,
                  oom_killed := true } ∧
    RunResult.timeout
        { exit_code := Option.some 137, stdout := [], stderr := [],
          duration := Option.some 1, timeout := false,
          oom_killed := true } = false :=
  ⟨rfl,
   start_oom_killed_not_timeout PyVal.pynone (CommOutcome.ok [] [])
     { exit_code := 137, duration := 1, oom_killed := true }
     { exit_code := Option.some 137, stdout := [], stderr := [],
       duration := Option.some 1, timeout := false, oom_killed := true }
     rfl rfl⟩

/-- Claim C3.  When the communicator raises TimeoutError, start returns
normally with timeout true, exit_code None, empty stdout and stderr,
duration None and oom_killed false, independently of any inspected
state; and in every result of start, exit_code is None exactly when the
communicator timed out. -/
theorem start_timeout_result (stdin : PyVal) (istate : InspectedState)
    (v : PyVal) (hcs : coerce_stdin stdin = Except.ok v) :
    start stdin CommOutcome.timeoutError istate =
      Except.ok { exit_code := Option.none, stdout := [], stderr := [],
                  duration := Option.none, timeout := true,
                  oom_killed := false } ∧
    (∀ (comm : CommOutcome) (istate' : InspectedState) (r : RunResult),
      start stdin comm istate' = Except.ok r →
      (r.exit_code = Option.none ↔ comm = CommOutcome.timeoutError)) := by
  constructor
  · unfold start
    rw [hcs]
    rfl
  · intro comm istate' r hok
    unfold start at hok
    rw [hcs] at hok
    simp only [Except.bind] at hok
    cases comm with
    | timeoutError => cases hok; simp
    | dockerFailure msg => cases hok
    | ok out err =>
        cases hb : is_killed_by_sigkill_or_sigxcpu istate'.exit_code &&
            !istate'.oom_killed with
        | true =>
            rw [hb] at hok
            cases hok
            simp
        | false =>
            rw [hb] at hok
            cases hok
            simp

/-- Witness for C3 at stdin None and a concrete inspected state. -/
theorem start_timeout_result_witness :
    start PyVal.pynone CommOutcome.timeoutError
        { exit_code := 0, duration := 0, oom_killed := false } =
      Except.ok { exit_code := Option.none, stdout := [], stderr := [],
                  duration := Option.none, timeout := true,
                  oom_killed := false } :=
  (start_timeout_result PyVal.pynone
    { exit_code := 0, duration := 0, oom_killed := false }
    PyVal.pynone rfl).1

/-- Counterexample to C10 as stated: the integer 0 is neither bytes,
nor str, nor None, yet start raises no TypeError; the truthiness gate
skips the type check entirely and the run completes normally. -/
theorem start_stdin_falsy_counterexample :
    start (PyVal.int 0) (CommOutcome.ok [] [])
        { exit_code := 0, duration := 0, oom_killed := false } =
      Except.ok { exit_code := Option.some 0, stdout := [], stderr := [],
                  duration := Option.some 0, timeout := false,
                  oom_killed := false } := rfl

/-- Claim C10 as amended.  Only a truthy stdin that is neither bytes
nor str raises TypeError before any communication (falsy values such as
0 pass through as absent input), and a truthy str stdin is utf-8
encoded to bytes by the coercion before being sent. -/
theorem start_stdin_typeerror_truthy :
    (∀ (v : PyVal) (comm : CommOutcome) (istate : InspectedState),
      pyTruthy v = true → pyIsBytes v = false → pyIsStr v = false →
      start v comm istate =
        Except.error (PyErr.typeError "stdin must be bytes or str")) ∧
    (∀ s : String, pyTruthy (PyVal.str s) = true →
      coerce_stdin (PyVal.str s) = Except.ok (PyVal.bytes (utf8Encode s))) := by
  constructor
  · intro v comm istate ht hb hs
    have hcs : coerce_stdin v =
        Except.error (PyErr.typeError "stdin must be bytes or str") := by
      unfold coerce_stdin
      rw [if_pos ht, hb, hs]
      rfl
    unfold start
    rw [hcs]
    rfl
  · intro s ht
    unfold coerce_stdin
    rw [if_pos ht]
    rfl

/-- Witness for the amended C10: stdin 1 raises TypeError and the
string "a" is encoded. -/
theorem start_stdin_typeerror_truthy_witness :
    start (PyVal.int 1) (CommOutcome.ok [] [])
        { exit_code := 0, duration := 0, oom_killed := false } =
      Except.error (PyErr.typeError "stdin must be bytes or str") ∧
    coerce_stdin (PyVal.str "a") = Except.ok (PyVal.bytes (utf8Encode "a")) :=
  ⟨start_stdin_typeerror_truthy.1 (PyVal.int 1) (CommOutcome.ok [] [])
      { exit_code := 0, duration := 0, oom_killed := false }
      (by decide) (by decide) (by decide),
   start_stdin_typeerror_truthy.2 "a" (by decide)⟩

/-! ### Stream demultiplexing (utils.demultiplex_docker_stream)

The raw attach stream is a byte list; each frame is an 8-byte header
(stream selector byte, three zero padding bytes, 32-bit big-endian
payload length) followed by the payload. -/

/-- The struct unpack of the 32-bit big-endian length (format >L). -/
def beU32 (b4 b5 b6 b7 : Nat) : Nat :=
  ((b4 * 256 + b5) * 256 + b6) * 256 + b7

/-- Python slice data[i:j] on byte lists (clamped like Python). -/
def pySlice (data : Bytes) (i j : Nat) : Bytes :=
  (data.drop i).take (j - i)

/-- The payload length read from the 8-byte header at offset walker
(bytes walker+4 .. walker+7, big endian). -/
def frameLen (data : Bytes) (walker : Nat) : Nat :=
  beU32 (data.getD (walker + 4) 0) (data.getD (walker + 5) 0)
    (data.getD (walker + 6) 0) (data.getD (walker + 7) 0)

/-- The while loop of utils.demultiplex_docker_stream: while at least
8 bytes remain past walker, read the header, slice the payload, append
it to the chunk list selected by the stream type byte (1 stdout,
2 stderr, anything else dropped), and move walker past the payload;
at exit join each chunk list. -/
def demuxGo (data : Bytes) (walker : Nat)
    (stdout_chunks stderr_chunks : List Bytes) : Bytes × Bytes :=
  if h : 8 ≤ data.length - walker then
    if data.getD walker 0 = 1 then
      demuxGo data (walker + 8 + frameLen data walker)
        (stdout_chunks ++ [pySlice data (walker + 8) (walker + 8 + frameLen data walker)])
        stderr_chunks
    else if data.getD walker 0 = 2 then
      demuxGo data (walker + 8 + frameLen data walker) stdout_chunks
        (stderr_chunks ++ [pySlice data (walker + 8) (walker + 8 + frameLen data walker)])
    else
      demuxGo data (walker + 8 + frameLen data walker) stdout_chunks stderr_chunks
  else (stdout_chunks.flatten, stderr_chunks.flatten)
termination_by data.length - walker
decreasing_by all_goals omega

/-- utils.demultiplex_docker_stream. -/
def demultiplex_docker_stream (data : Bytes) : Bytes × Bytes :=
  demuxGo data 0 [] []

/-- Structural restatement of the demux loop on the unread suffix,
used to reason by induction on frames. -/
def demuxS (data : Bytes) : Bytes × Bytes :=
  if h : 8 ≤ data.length then
    if data.getD 0 0 = 1 then
      ((data.drop 8).take (frameLen data 0) ++
        (demuxS (data.drop (8 + frameLen data 0))).1,
       (demuxS (data.drop (8 + frameLen data 0))).2)
    else if data.getD 0 0 = 2 then
      ((demuxS (data.drop (8 + frameLen data 0))).1,
       (data.drop 8).take (frameLen data 0) ++
        (demuxS (data.drop (8 + frameLen data 0))).2)
    else demuxS (data.drop (8 + frameLen data 0))
  else ([], [])
termination_by data.length
decreasing_by all_goals simp only [List.length_drop]; omega

theorem getD_drop (l : Bytes) (n i : Nat) :
    (l.drop n).getD i 0 = l.getD (n + i) 0 := by
  induction l generalizing n i with
  | nil => simp [List.getD]
  | cons x t ih =>
      cases n with
      | zero => simp
      | succ m =>
          rw [List.drop_succ_cons, ih]
          have h : m + 1 + i = (m + i) + 1 := by omega
          rw [h]
          simp [List.getD]

theorem drop_drop_add (l : Bytes) (m n : Nat) :
    (l.drop m).drop n = l.drop (m + n) := by
  rw [List.drop_drop]

theorem frameLen_drop (data : Bytes) (walker : Nat) :
    frameLen (data.drop walker) 0 = frameLen data walker := by
  simp only [frameLen, getD_drop, Nat.zero_add]

theorem demuxGo_fuel (n : Nat) :
    ∀ (data : Bytes) (walker : Nat), data.length - walker ≤ n →
      ∀ (oa ea : List Bytes),
        demuxGo data walker oa ea =
          (oa.flatten ++ (demuxS (data.drop walker)).1,
           ea.flatten ++ (demuxS (data.drop walker)).2) := by
  induction n with
  | zero =>
      intro data walker h oa ea
      rw [demuxGo, dif_neg (by omega)]
      rw [demuxS, dif_neg (by simp only [List.length_drop]; omega)]
      simp
  | succ n ih =>
      intro data walker h oa ea
      by_cases h8 : 8 ≤ data.length - walker
      · have h8' : 8 ≤ (data.drop walker).length := by
          simp only [List.length_drop]; omega
        have hle : data.length - (walker + 8 + frameLen data walker) ≤ n := by
          omega
        have hQ : walker + (8 + frameLen data walker) =
            walker + 8 + frameLen data walker := by omega
        have hT : walker + 8 + frameLen data walker - (walker + 8) =
            frameLen data walker := by omega
        have hGD : (data.drop walker).getD 0 0 = data.getD walker 0 := by
          simp [getD_drop]
        rw [demuxGo, dif_pos h8]
        rw [demuxS, dif_pos h8', hGD, frameLen_drop]
        rw [drop_drop_add data walker 8,
          drop_drop_add data walker (8 + frameLen data walker), hQ]
        by_cases hst1 : data.getD walker 0 = 1
        · rw [if_pos hst1, if_pos hst1]
          rw [ih data (walker + 8 + frameLen data walker) hle]
          rw [pySlice, hT]
          simp [List.flatten_append, List.append_assoc]
        · rw [if_neg hst1, if_neg hst1]
          by_cases hst2 : data.getD walker 0 = 2
          · rw [if_pos hst2, if_pos hst2]
            rw [ih data (walker + 8 + frameLen data walker) hle]
            rw [pySlice, hT]
            simp [List.flatten_append, List.append_assoc]
          · rw [if_neg hst2, if_neg hst2]
            rw [ih data (walker + 8 + frameLen data walker) hle]
      · rw [demuxGo, dif_neg h8]
        rw [demuxS, dif_neg (by simp only [List.length_drop]; omega)]
        simp

theorem demultiplex_eq_demuxS (data : Bytes) :
    demultiplex_docker_stream data = demuxS data := by
  have h := demuxGo_fuel (data.length - 0) data 0 le_rfl [] []
  simpa [demultiplex_docker_stream] using h

/-- The four bytes of a 32-bit big-endian length field (struct pack of
format >L). -/
def beLenBytes (n : Nat) : Bytes :=
  [n / 2 ^ 24 % 256, n / 2 ^ 16 % 256, n / 2 ^ 8 % 256, n % 256]

/-- One multiplex frame: selector byte, three zero padding bytes, the
big-endian payload length, then the payload. -/
def encodeFrame (f : Nat × Bytes) : Bytes :=
  f.1 :: 0 :: 0 :: 0 :: (beLenBytes f.2.length ++ f.2)

/-- The concatenation of a sequence of frames. -/
def encodeFrames (fs : List (Nat × Bytes)) : Bytes :=
  (fs.map encodeFrame).flatten

/-- The concatenation, in arrival order, of the payloads carried by the
given selector. -/
def selPayloads (sel : Nat) (fs : List (Nat × Bytes)) : Bytes :=
  ((fs.filter (fun f => f.1 == sel)).map (fun f => f.2)).flatten

theorem beU32_beLenBytes (n : Nat) (h : n < 2 ^ 32) :
    beU32 (n / 2 ^ 24 % 256) (n / 2 ^ 16 % 256) (n / 2 ^ 8 % 256) (n % 256) =
      n := by
  unfold beU32
  omega

theorem selPayloads_cons (want : Nat) (f : Nat × Bytes) (t : List (Nat × Bytes)) :
    selPayloads want (f :: t) =
      if f.1 = want then f.2 ++ selPayloads want t else selPayloads want t := by
  by_cases h : f.1 = want
  · simp [selPayloads, List.filter_cons, h]
  · simp [selPayloads, List.filter_cons, h]

theorem demuxS_encodeFrames (fs : List (Nat × Bytes)) (junk : Bytes)
    (hlen : ∀ f ∈ fs, f.2.length < 2 ^ 32) (hj : junk.length < 8) :
    demuxS (encodeFrames fs ++ junk) = (selPayloads 1 fs, selPayloads 2 fs) := by
  induction fs with
  | nil =>
      rw [show encodeFrames [] ++ junk = junk by simp [encodeFrames]]
      rw [demuxS, dif_neg (by omega)]
      simp [selPayloads]
  | cons f t ih =>
      obtain ⟨sel, p⟩ := f
      have hp : p.length < 2 ^ 32 := hlen ⟨sel, p⟩ (by simp)
      have hdata : encodeFrames (⟨sel, p⟩ :: t) ++ junk =
          sel :: 0 :: 0 :: 0 :: (p.length / 2 ^ 24 % 256) ::
            (p.length / 2 ^ 16 % 256) :: (p.length / 2 ^ 8 % 256) ::
            (p.length % 256) :: (p ++ (encodeFrames t ++ junk)) := by
        simp [encodeFrames, encodeFrame, beLenBytes]
      rw [hdata]
      have h8 : 8 ≤ (sel :: 0 :: 0 :: 0 :: (p.length / 2 ^ 24 % 256) ::
          (p.length / 2 ^ 16 % 256) :: (p.length / 2 ^ 8 % 256) ::
          (p.length % 256) :: (p ++ (encodeFrames t ++ junk))).length := by
        simp [List.length_cons]
      have hhead : (sel :: 0 :: 0 :: 0 :: (p.length / 2 ^ 24 % 256) ::
          (p.length / 2 ^ 16 % 256) :: (p.length / 2 ^ 8 % 256) ::
          (p.length % 256) :: (p ++ (encodeFrames t ++ junk))).getD 0 0 =
          sel := rfl
      have hflen : frameLen (sel :: 0 :: 0 :: 0 :: (p.length / 2 ^ 24 % 256) ::
          (p.length / 2 ^ 16 % 256) :: (p.length / 2 ^ 8 % 256) ::
          (p.length % 256) :: (p ++ (encodeFrames t ++ junk))) 0 = p.length := by
        show beU32 (p.length / 2 ^ 24 % 256) (p.length / 2 ^ 16 % 256)
          (p.length / 2 ^ 8 % 256) (p.length % 256) = p.length
        exact beU32_beLenBytes p.length hp
      have hdrop8 : (sel :: 0 :: 0 :: 0 :: (p.length / 2 ^ 24 % 256) ::
          (p.length / 2 ^ 16 % 256) :: (p.length / 2 ^ 8 % 256) ::
          (p.length % 256) :: (p ++ (encodeFrames t ++ junk))).drop 8 =
          p ++ (encodeFrames t ++ junk) := rfl
      have hdropAll : (sel :: 0 :: 0 :: 0 :: (p.length / 2 ^ 24 % 256) ::
          (p.length / 2 ^ 16 % 256) :: (p.length / 2 ^ 8 % 256) ::
          (p.length % 256) :: (p ++ (encodeFrames t ++ junk))).drop
            (8 + p.length) = encodeFrames t ++ junk := by
        rw [← drop_drop_add, hdrop8, List.drop_left]
      have ih' := ih (fun g hg => hlen g (List.mem_cons_of_mem _ hg))
      rw [demuxS, dif_pos h8, hhead, hflen, hdrop8, hdropAll, List.take_left,
        ih']
      by_cases h1 : sel = 1
      · rw [if_pos h1]
        simp [selPayloads_cons, h1]
      · rw [if_neg h1]
        by_cases h2 : sel = 2
        · rw [if_pos h2]
          simp [selPayloads_cons, h1, h2]
        · rw [if_neg h2]
          simp [selPayloads_cons, h1, h2]

/-- Claim C6.  Framing any finite sequence of (selector byte, payload)
frames with the 8-byte header and a 32-bit big-endian length, appending
any trailing fragment shorter than 8 bytes, and demultiplexing, yields
exactly the concatenated selector-1 payloads and the concatenated
selector-2 payloads; other selectors contribute to neither output and
the trailing fragment is discarded. -/
theorem demultiplex_roundtrip (fs : List (Nat × Bytes)) (junk : Bytes)
    (_hsel : ∀ f ∈ fs, f.1 < 256)
    (hlen : ∀ f ∈ fs, f.2.length < 2 ^ 32)
    (hj : junk.length < 8) :
    demultiplex_docker_stream (encodeFrames fs ++ junk) =
      (selPayloads 1 fs, selPayloads 2 fs) := by
  rw [demultiplex_eq_demuxS]
  exact demuxS_encodeFrames fs junk hlen hj

/-- Witness for C6: an stdout frame, an stderr frame, an ignored
selector-0 frame, an ignored selector-3 frame, and a 3-byte trailing
fragment. -/
theorem demultiplex_roundtrip_witness :
    demultiplex_docker_stream
        (encodeFrames [(1, [104, 105]), (2, [33]), (0, [7]), (3, [8, 9])] ++
          [255, 255, 255]) =
      (selPayloads 1 [(1, [104, 105]), (2, [33]), (0, [7]), (3, [8, 9])],
       selPayloads 2 [(1, [104, 105]), (2, [33]), (0, [7]), (3, [8, 9])]) :=
  demultiplex_roundtrip [(1, [104, 105]), (2, [33]), (0, [7]), (3, [8, 9])]
    [255, 255, 255] (by decide) (by decide) (by decide)

/-! ### File upload (sandboxes._write_files)

The tar archive is modelled as the ordered list of (entry name, entry
content) pairs written by tarball.addfile. -/

/-- One file record: the value of the name key as read by
file.get("name") (PyVal.pynone when the key is absent), and the content
bytes when the content key is present. -/
structure FileRec where
  name : PyVal
  content : Option Bytes
deriving DecidableEq, Repr

/-- The loop body of _write_files: a record is skipped when
file.get("name") is falsy or not a str; otherwise an entry with the
name and the content (b"" when absent) is appended. -/
def write_files_step (tarball : List (String × Bytes)) (file : FileRec) :
    List (String × Bytes) :=
  if !pyTruthy file.name || !pyIsStr file.name then tarball
  else
    match file.name with
    | PyVal.str s => tarball ++ [(s, file.content.getD [])]
    | _ => tarball

/-- The tar entries produced by sandboxes._write_files, in list order. -/
def write_files_tar (files : List FileRec) : List (String × Bytes) :=
  files.foldl write_files_step []

/-- Counterexample to C7 as stated: the empty string is a string, yet a
record named by it is skipped (the truthiness test rejects it), so the
tar contains no entry for it. -/
theorem write_files_empty_name_counterexample :
    write_files_tar [{ name := PyVal.str "", content := Option.some [1] }] =
      [] ∧ pyIsStr (PyVal.str "") = true := by
  constructor
  · rfl
  · rfl

/-- The per-record entry description: a record contributes exactly one
entry, at its name with its content bytes (empty when absent), exactly
when its name is a truthy (non-empty) str. -/
def tar_entry_spec (f : FileRec) : Option (String × Bytes) :=
  match f.name with
  | PyVal.str s => if s = "" then Option.none
                   else Option.some (s, f.content.getD [])
  | _ => Option.none

theorem write_files_foldl (files : List FileRec) (acc : List (String × Bytes)) :
    files.foldl write_files_step acc = acc ++ files.filterMap tar_entry_spec := by
  induction files generalizing acc with
  | nil => simp
  | cons f t ih =>
      rw [List.foldl_cons, ih]
      cases hn : f.name with
      | pynone => simp [write_files_step, tar_entry_spec, hn, pyTruthy, pyIsStr]
      | bytes b => simp [write_files_step, tar_entry_spec, hn, pyTruthy, pyIsStr]
      | int n => simp [write_files_step, tar_entry_spec, hn, pyTruthy, pyIsStr]
      | str s =>
          by_cases hs : s = ""
          · simp [write_files_step, tar_entry_spec, hn, pyTruthy, pyIsStr, hs]
          · simp [write_files_step, tar_entry_spec, hn, pyTruthy, pyIsStr, hs]

/-- Claim C7 as amended.  The tar contains, for each record whose name
is a truthy (non-empty) str, exactly one entry at that name with the
content bytes (empty when the content key is absent), in list order;
records whose name is missing, non-string, or the empty string are
silently skipped. -/
theorem write_files_tar_entries (files : List FileRec) :
    write_files_tar files = files.filterMap tar_entry_spec := by
  rw [write_files_tar, write_files_foldl]
  rfl

/-! ### Profiles and configuration (epicbox/config.py) -/

/-- config.Profile. -/
structure Profile where
  name : String
  docker_image : String
  command : Option String
  user : String
  read_only : Bool
  network_disabled : Bool
deriving DecidableEq, Repr

/-- config.DEFAULT_USER. -/
def DEFAULT_USER : String := "root"

/-- Profile construction with every optional argument of
Profile.__init__ left at its default (command None, user DEFAULT_USER,
read_only False, network_disabled True). -/
def Profile.mkDefault (name docker_image : String) : Profile :=
  { name := name, docker_image := docker_image, command := Option.none,
    user := DEFAULT_USER, read_only := false, network_disabled := true }

/-- The module-level state of config.py touched by configure. -/
structure ConfigState where
  is_configured : Bool
  profiles : List (String × Profile)
  docker_url : Option String
deriving DecidableEq, Repr

/-- The profiles_map comprehension of configure for a list of Profile
objects: a dict keyed by each profile name. -/
def build_profiles_map (profiles : List Profile) : List (String × Profile) :=
  profiles.foldl (fun m p => dset m p.name p) []

/-- config.configure (the branch taking a list of Profile objects; the
dict branch builds the same map from keyword arguments).  Note
PROFILES.update(profiles_map): the new map is folded into the existing
mapping, entry by entry. -/
def configure (state : ConfigState) (profiles : Option (List Profile))
    (docker_url : Option String) : ConfigState :=
  { is_configured := true,
    profiles := (build_profiles_map (profiles.getD [])).foldl
      (fun m kv => dset m kv.1 kv.2) state.profiles,
    docker_url := docker_url }

/-- The profile lookup at the top of sandboxes.create: an unknown name
raises ValueError "Profile not found". -/
def create_lookup_profile (state : ConfigState) (profile_name : String) :
    Except PyErr Profile :=
  match dget state.profiles profile_name with
  | Option.none =>
      Except.error (PyErr.valueError ("Profile not found: " ++ profile_name))
  | Option.some p => Except.ok p

theorem dget_eq_none_of_not_mem {α : Type} (l : List (String × α)) (k : String)
    (h : k ∉ l.map Prod.fst) : dget l k = Option.none := by
  induction l with
  | nil => rfl
  | cons kv t ih =>
      simp only [List.map_cons, List.mem_cons] at h
      push_neg at h
      simp only [dget]
      rw [if_neg (fun hh => h.1 hh.symm)]
      exact ih h.2

theorem mem_keys_dset {α : Type} (d : List (String × α)) (k : String) (v : α)
    (k' : String) :
    k' ∈ (dset d k v).map Prod.fst ↔ k' ∈ d.map Prod.fst ∨ k' = k := by
  induction d with
  | nil => simp [dset, eq_comm]
  | cons kv t ih =>
      obtain ⟨k₀, v₀⟩ := kv
      by_cases h : k₀ = k
      · subst h
        simp [dset, or_assoc, or_comm, eq_comm]
      · simp [dset, h, ih, or_assoc]

theorem nodup_keys_dset {α : Type} (d : List (String × α)) (k : String) (v : α)
    (h : (d.map Prod.fst).Nodup) : ((dset d k v).map Prod.fst).Nodup := by
  induction d with
  | nil => simp [dset]
  | cons kv t ih =>
      obtain ⟨k₀, v₀⟩ := kv
      simp only [List.map_cons, List.nodup_cons] at h
      by_cases hk : k₀ = k
      · subst hk
        simp only [dset]
        simp only [if_true, List.map_cons, List.nodup_cons]
        exact ⟨h.1, h.2⟩
      · simp only [dset, if_neg hk]
        simp only [List.map_cons, List.nodup_cons]
        constructor
        · intro hmem
          rcases (mem_keys_dset t k v k₀).mp hmem with hin | heq
          · exact h.1 hin
          · exact hk heq
        · exact ih h.2

/-- The first option when present, the second otherwise (the lookup
discipline of a dict updated by another dict). -/
def firstSome {α : Type} (a b : Option α) : Option α :=
  match a with
  | Option.some v => Option.some v
  | Option.none => b

theorem dget_foldl_dset {α : Type} (l : List (String × α))
    (m : List (String × α)) (k : String)
    (hnd : (l.map Prod.fst).Nodup) :
    dget (l.foldl (fun m kv => dset m kv.1 kv.2) m) k =
      firstSome (dget l k) (dget m k) := by
  induction l generalizing m with
  | nil => simp [dget, firstSome]
  | cons kv t ih =>
      simp only [List.map_cons, List.nodup_cons] at hnd
      rw [List.foldl_cons, ih (dset m kv.1 kv.2) hnd.2]
      by_cases hk : kv.1 = k
      · have ht : dget t k = Option.none := by
          apply dget_eq_none_of_not_mem
          rw [← hk]
          exact hnd.1
        have hcons : dget (kv :: t) k = Option.some kv.2 := by
          obtain ⟨k₀, v₀⟩ := kv
          simp only at hk
          simp [dget, hk]
        rw [ht, hcons, ← hk, dget_dset_self]
        simp [firstSome]
      · have hcons : dget (kv :: t) k = dget t k := by
          obtain ⟨k₀, v₀⟩ := kv
          simp only at hk
          simp [dget, hk]
        rw [dget_dset_ne m kv.1 k kv.2 (Ne.symm hk), hcons]

theorem nodup_keys_build_profiles_map_aux (ps : List Profile)
    (m : List (String × Profile)) (h : (m.map Prod.fst).Nodup) :
    ((ps.foldl (fun m p => dset m p.name p) m).map Prod.fst).Nodup := by
  induction ps generalizing m with
  | nil => exact h
  | cons p t ih =>
      rw [List.foldl_cons]
      exact ih (dset m p.name p) (nodup_keys_dset m p.name p h)

theorem nodup_keys_build_profiles_map (ps : List Profile) :
    ((build_profiles_map ps).map Prod.fst).Nodup :=
  nodup_keys_build_profiles_map_aux ps [] (by simp)

/-- Counterexample to C8 as stated: after re-configuration with a
mapping containing only "second", the profile "first" from the previous
configuration is still found (PROFILES.update merges, it does not
replace), so the lookup does not fail with "Profile not found". -/
theorem configure_old_profile_still_found :
    create_lookup_profile
      (configure
        (configure
          { is_configured := false, profiles := [], docker_url := Option.none }
          (Option.some [Profile.mkDefault "first" "image1"]) Option.none)
        (Option.some [Profile.mkDefault "second" "image2"]) Option.none)
      "first" = Except.ok (Profile.mkDefault "first" "image1") := rfl

/-- Claim C8 as amended.  configure folds the newly supplied mapping
into the process-wide mapping: a name in the new mapping resolves to
its new profile, and any other name keeps resolving to whatever the
previous mapping gave it (old entries are retained, not discarded). -/
theorem configure_update_merges (state : ConfigState)
    (profiles : Option (List Profile)) (docker_url : Option String)
    (k : String) :
    dget (configure state profiles docker_url).profiles k =
      firstSome (dget (build_profiles_map (profiles.getD [])) k)
        (dget state.profiles k) := by
  have h := dget_foldl_dset (build_profiles_map (profiles.getD []))
    state.profiles k (nodup_keys_build_profiles_map (profiles.getD []))
  simpa [configure] using h

/-- Counterexample to C9 as stated: a Profile constructed without an
explicit user argument does not get user "sandbox". -/
theorem profile_default_user_counterexample :
    (Profile.mkDefault "python" "python:3").user ≠ "sandbox" := by decide

/-- Claim C9 as amended.  A Profile constructed without an explicit
user argument has user DEFAULT_USER, the string "root". -/
theorem profile_default_user_is_root (name docker_image : String) :
    (Profile.mkDefault name docker_image).user = "root" := rfl
